import Mathlib

set_option maxHeartbeats 1000000

/-!
Verification of the subprocess supervision and request-correlation engine of
`src/vanna-mcp-server.js` (class `VannaMCPServer`).

The JavaScript code is single-threaded and event-driven; we embed it as an
explicit state machine: a `ServerState` record mirroring the mutable fields of
the class, and a `step` function dispatching on the asynchronous events that
can occur (a tool submission, a parsed stdout response line, a per-request
timeout firing, a stderr data chunk, a process-level error, a process exit,
a deliberate kill, a scheduled `startPython` invocation running, and the
initialization timer firing).  Settlements of caller-visible promises are
emitted as an output list at each step.
-/

namespace VannaMCP

/-- How a caller-visible promise for one request is settled.  `resolved` and
`rejectedErr` come from a matched stdout response (lines 162-167), `timedOut`
from the per-request 30s timer (lines 219-225), `procExited` from the purge in
the `exit` handler (lines 187-190), `notReady` from the guard throw in
`sendToVanna` (lines 211-213), and `commError` from the `stdin.write` catch
(lines 229-234). -/
inductive Outcome where
  | resolved
  | rejectedErr
  | timedOut
  | procExited
  | notReady
  | commError
deriving DecidableEq

/-- One settlement event: the request identifier together with how it settled. -/
structure Settlement where
  id : Nat
  outcome : Outcome
deriving DecidableEq

/-- The fixed attempt budget (`this.maxAttempts = 3`, line 20). -/
def maxAttempts : Nat := 3

/-- The fixed relaunch backoff in milliseconds (`setTimeout(..., 5000)`,
lines 137, 179, 193). -/
def backoffMs : Nat := 5000

/-- The mutable fields of `VannaMCPServer` relevant to supervision and
correlation (constructor lines 17-23), plus instrumentation needed to state
the claims:
* `pythonProcess` models `this.pythonProcess !== null`;
* `isVannaReady`, `initializationAttempts`, `requestId` are the homonymous
  fields (`requestId` starts at 1 and is the next identifier to allocate);
* `pendingRequests` is the key set of the `Map` `this.pendingRequests`, in
  insertion order;
* `requestTimers` is the set of armed per-request 30s timers (one is created
  in `sendToVanna` and disappears when it fires or is cleared);
* `initTimerArmed` records whether the 60s initialization timer of the current
  launch is armed;
* `scheduledRestarts` records the delays of `setTimeout(() => this.startPython(), …)`
  calls made so far (each entry is one scheduled relaunch);
* `launches` counts successful `spawn` calls;
* `stdinWrites` counts successful writes to the worker's stdin. -/
structure ServerState where
  pythonProcess : Bool
  isVannaReady : Bool
  initializationAttempts : Nat
  requestId : Nat
  pendingRequests : List Nat
  requestTimers : List Nat
  initTimerArmed : Bool
  scheduledRestarts : List Nat
  launches : Nat
  stdinWrites : Nat
deriving DecidableEq

/-- The constructor state (lines 17-23): no process, not ready, zero attempts,
`requestId = 1`, empty pending map. -/
def initialState : ServerState :=
  { pythonProcess := false
    isVannaReady := false
    initializationAttempts := 0
    requestId := 1
    pendingRequests := []
    requestTimers := []
    initTimerArmed := false
    scheduledRestarts := []
    launches := 0
    stdinWrites := 0 }

/-- Whether `pat` is a leading run of `s` (character-list version of the
prefix test underlying `String.prototype.includes`). -/
def headMatches : List Char → List Char → Bool
  | [], _ => true
  | _ :: _, [] => false
  | p :: ps, c :: cs => p == c && headMatches ps cs

/-- Whether `pat` occurs as a contiguous substring of `s`, the semantics of
JavaScript `s.includes(pat)`. -/
def containsSub (pat : List Char) : List Char → Bool
  | [] => headMatches pat []
  | c :: cs => headMatches pat (c :: cs) || containsSub pat cs

/-- The designated readiness marker `'MCP_SERVER_READY'` (line 144). -/
def readyMarker : List Char :=
  ['M', 'C', 'P', '_', 'S', 'E', 'R', 'V', 'E', 'R', '_', 'R', 'E', 'A', 'D', 'Y']

/-- The lowercase word `'ready'` (line 144). -/
def readyWord : List Char := ['r', 'e', 'a', 'd', 'y']

/-- The readiness test of the stderr handler (line 144):
`output.includes('MCP_SERVER_READY') || output.includes('ready')`. -/
def containsReady (chunk : List Char) : Bool :=
  containsSub readyMarker chunk || containsSub readyWord chunk

/-- The stderr `data` handler (lines 140-150): if the chunk contains a
readiness marker anywhere, clear the init timer, set `isVannaReady = true`
and reset `initializationAttempts` to 0; otherwise only log. -/
def onStderrData (st : ServerState) (chunk : List Char) : ServerState :=
  if containsReady chunk then
    { st with isVannaReady := true, initializationAttempts := 0, initTimerArmed := false }
  else st

/-- The body of `sendToVanna` (lines 210-236) for a request whose envelope
carries identifier `id`.  If the process reference is null or the ready flag
is false, it throws the "System initializing" error before touching the
pending map or the stream (lines 211-213).  Otherwise it registers the
pending entry, arms the per-request timer and writes the framed message;
if the write throws (`writeOk = false`), the catch clears the timer, deletes
the pending entry and rejects, so the net state is unchanged (lines 227-234). -/
def sendToVanna (st : ServerState) (id : Nat) (writeOk : Bool) :
    ServerState × List Settlement :=
  if !st.pythonProcess || !st.isVannaReady then
    (st, [{ id := id, outcome := .notReady }])
  else if writeOk then
    ({ st with
        pendingRequests := st.pendingRequests ++ [id]
        requestTimers := st.requestTimers ++ [id]
        stdinWrites := st.stdinWrites + 1 }, [])
  else
    (st, [{ id := id, outcome := .commError }])

/-- A tool handler submitting one request: it allocates `this.requestId++`
as the envelope identifier (lines 493-498 and analogues) and calls
`sendToVanna`. -/
def submitRequest (st : ServerState) (writeOk : Bool) :
    ServerState × List Settlement :=
  sendToVanna { st with requestId := st.requestId + 1 } st.requestId writeOk

/-- The stdout correlator for one parsed response line (lines 162-167):
if `response.id` is truthy and present in the pending map, the entry is
removed and the promise resolved or rejected according to the presence of
`response.error`; otherwise nothing happens.  The per-request timer is not
touched here. -/
def handleResponse (st : ServerState) (id : Nat) (isErr : Bool) :
    ServerState × List Settlement :=
  if id != 0 && st.pendingRequests.contains id then
    ({ st with pendingRequests := st.pendingRequests.erase id },
     [{ id := id, outcome := if isErr then .rejectedErr else .resolved }])
  else (st, [])

/-- The per-request 30s timer callback (lines 219-225) for identifier `id`.
It can only run while the timer is armed; firing consumes the timer, and the
body rejects with a timeout only if the identifier is still pending. -/
def onRequestTimeout (st : ServerState) (id : Nat) :
    ServerState × List Settlement :=
  if st.requestTimers.contains id then
    if st.pendingRequests.contains id then
      ({ st with
          requestTimers := st.requestTimers.erase id
          pendingRequests := st.pendingRequests.erase id },
       [{ id := id, outcome := .timedOut }])
    else ({ st with requestTimers := st.requestTimers.erase id }, [])
  else (st, [])

/-- `killPython` (lines 198-208): if the process reference is non-null, send
SIGTERM, null the reference and clear the ready flag; if `kill` throws
(`killOk = false`) the two assignments are skipped.  Nothing else changes:
no purge, no scheduling. -/
def killPython (st : ServerState) (killOk : Bool) : ServerState :=
  if st.pythonProcess then
    if killOk then { st with pythonProcess := false, isVannaReady := false } else st
  else st

/-- `startPython` (lines 113-138): bail out when the attempt budget is
exhausted (lines 114-117); otherwise increment the attempt counter
(line 119); bail out if the executable or script is missing
(`filesOk = false`, lines 123-126); otherwise spawn the process and arm the
60s initialization timer (lines 128-138). -/
def startPython (st : ServerState) (filesOk : Bool) : ServerState :=
  if st.initializationAttempts ≥ maxAttempts then st
  else if filesOk then
    { st with
        initializationAttempts := st.initializationAttempts + 1
        pythonProcess := true
        initTimerArmed := true
        launches := st.launches + 1 }
  else { st with initializationAttempts := st.initializationAttempts + 1 }

/-- The process `error` handler (lines 175-180): clear the init timer, log,
clear the ready flag, and schedule a relaunch after the backoff.  The pending
map is not touched. -/
def onProcessError (st : ServerState) : ServerState :=
  { st with
      isVannaReady := false
      initTimerArmed := false
      scheduledRestarts := st.scheduledRestarts ++ [backoffMs] }

/-- The process `exit` handler (lines 182-195): clear the init timer and the
ready flag, reject every pending request with "Python process exited" and
clear the map, then schedule a relaunch after the backoff unless the signal
was SIGTERM, the exit code was 0, or the attempt budget is exhausted
(line 192). -/
def onProcessExit (st : ServerState) (code : Option Int) (signal : Option String) :
    ServerState × List Settlement :=
  if signal ≠ some "SIGTERM" ∧ code ≠ some 0 ∧ st.initializationAttempts < maxAttempts then
    ({ st with
        isVannaReady := false
        initTimerArmed := false
        pendingRequests := []
        scheduledRestarts := st.scheduledRestarts ++ [backoffMs] },
     st.pendingRequests.map fun id => { id := id, outcome := .procExited })
  else
    ({ st with isVannaReady := false, initTimerArmed := false, pendingRequests := [] },
     st.pendingRequests.map fun id => { id := id, outcome := .procExited })

/-- The 60s initialization timer callback (lines 134-138): it can only run
while armed; firing consumes the timer, logs, calls `killPython` and
schedules a relaunch after the backoff. -/
def onInitTimeout (st : ServerState) : ServerState :=
  if st.initTimerArmed then
    { killPython { st with initTimerArmed := false } true with
        scheduledRestarts := st.scheduledRestarts ++ [backoffMs] }
  else st

/-- The asynchronous events the event loop can deliver to the supervisor. -/
inductive Event where
  | submit (writeOk : Bool)
  | response (id : Nat) (isErr : Bool)
  | requestTimeout (id : Nat)
  | stderrData (chunk : List Char)
  | processError
  | processExit (code : Option Int) (signal : Option String)
  | kill (killOk : Bool)
  | runStart (filesOk : Bool)
  | initTimeout

/-- One step of the event loop: dispatch the event to the corresponding
handler, returning the new state and the settlements it produced. -/
def step (st : ServerState) (ev : Event) : ServerState × List Settlement :=
  match ev with
  | .submit w => submitRequest st w
  | .response id e => handleResponse st id e
  | .requestTimeout id => onRequestTimeout st id
  | .stderrData c => (onStderrData st c, [])
  | .processError => (onProcessError st, [])
  | .processExit c s => onProcessExit st c s
  | .kill k => (killPython st k, [])
  | .runStart f => (startPython st f, [])
  | .initTimeout => (onInitTimeout st, [])

/-- Run a sequence of events from a state, concatenating the settlements. -/
def run (st : ServerState) : List Event → ServerState × List Settlement
  | [] => (st, [])
  | ev :: evs =>
    let p := step st ev
    let q := run p.1 evs
    (q.1, p.2 ++ q.2)

/-- Number of settlements for identifier `id` in an output list. -/
def settleCount (id : Nat) (out : List Settlement) : Nat :=
  out.countP fun s => s.id == id

/-- The identifiers allocated (`this.requestId++`) along a run, in order. -/
def allocIds (st : ServerState) : List Event → List Nat
  | [] => []
  | ev :: evs =>
    match ev with
    | .submit _ => st.requestId :: allocIds (step st ev).1 evs
    | _ => allocIds (step st ev).1 evs

/-- JavaScript `s.split('\n')` on character lists.  The result is always
nonempty; splitting the empty string yields `['']`. -/
def jsSplit : List Char → List (List Char)
  | [] => [[]]
  | c :: rest =>
    if c = '\n' then [] :: jsSplit rest
    else
      match jsSplit rest with
      | [] => [[c]]
      | p :: ps => (c :: p) :: ps

/-- Prepend `x` to the first element of a split result (used to glue the
trailing fragment of one piece onto the first line of the next). -/
def glueHead (x : List Char) : List (List Char) → List (List Char)
  | [] => [x]
  | p :: ps => (x ++ p) :: ps

/-- The character-level part of the stdout `data` handler (lines 153-156),
applied after the chunk has already been decoded to text:
`buffer += data.toString(); const lines = buffer.split('\n');
buffer = lines.pop() || ''`.  Returns the complete lines emitted by this
chunk and the new buffer.  The decode itself is `utf8Decode` below. -/
def handleChunk (buffer chunk : List Char) : List (List Char) × List Char :=
  let lines := jsSplit (buffer ++ chunk)
  (lines.dropLast, lines.getLastD [])

/-- Feeding a whole sequence of already-decoded chunks through the framer,
concatenating the emitted lines and threading the buffer. -/
def handleChunks (buffer : List Char) : List (List Char) → List (List Char) × List Char
  | [] => ([], buffer)
  | c :: cs =>
    let p := handleChunk buffer c
    let q := handleChunks p.2 cs
    (p.1 ++ q.1, q.2)

/-- The U+FFFD replacement character emitted by `Buffer.toString('utf8')`
for ill-formed byte subsequences. -/
def replacementChar : Char := Char.ofNat 0xFFFD

/-- Worker for `utf8Decode`, structurally recursive on a fuel bound so that
the kernel can evaluate it.  Every step consumes at least one byte, so a
fuel equal to the chunk length (as passed by `utf8Decode`) never runs out
and the `fuel = 0` fallback is unreachable.  On an invalid continuation
byte the WHATWG decoder emits one replacement and reprocesses that byte as
a fresh lead (`b2 :: rest2` below). -/
def utf8DecodeAux : Nat → List Nat → List Char
  | _, [] => []
  | 0, _ :: _ => []
  | fuel + 1, b :: rest =>
    if b ≤ 0x7F then Char.ofNat b :: utf8DecodeAux fuel rest
    else if b < 0xC2 then replacementChar :: utf8DecodeAux fuel rest
    else if b ≤ 0xDF then
      match rest with
      | [] => [replacementChar]
      | b2 :: rest2 =>
        if 0x80 ≤ b2 ∧ b2 ≤ 0xBF then
          Char.ofNat ((b % 0x20) * 64 + (b2 % 0x40)) :: utf8DecodeAux fuel rest2
        else replacementChar :: utf8DecodeAux fuel (b2 :: rest2)
    else if b ≤ 0xEF then
      match rest with
      | [] => [replacementChar]
      | b2 :: rest2 =>
        if (if b = 0xE0 then 0xA0 else 0x80) ≤ b2 ∧
            b2 ≤ (if b = 0xED then 0x9F else 0xBF) then
          match rest2 with
          | [] => [replacementChar]
          | b3 :: rest3 =>
            if 0x80 ≤ b3 ∧ b3 ≤ 0xBF then
              Char.ofNat (((b % 0x10) * 64 + (b2 % 0x40)) * 64 + (b3 % 0x40)) ::
                utf8DecodeAux fuel rest3
            else replacementChar :: utf8DecodeAux fuel (b3 :: rest3)
        else replacementChar :: utf8DecodeAux fuel (b2 :: rest2)
    else if b ≤ 0xF4 then
      match rest with
      | [] => [replacementChar]
      | b2 :: rest2 =>
        if (if b = 0xF0 then 0x90 else 0x80) ≤ b2 ∧
            b2 ≤ (if b = 0xF4 then 0x8F else 0xBF) then
          match rest2 with
          | [] => [replacementChar]
          | b3 :: rest3 =>
            if 0x80 ≤ b3 ∧ b3 ≤ 0xBF then
              match rest3 with
              | [] => [replacementChar]
              | b4 :: rest4 =>
                if 0x80 ≤ b4 ∧ b4 ≤ 0xBF then
                  Char.ofNat ((((b % 8) * 64 + (b2 % 0x40)) * 64 + (b3 % 0x40)) * 64 +
                      (b4 % 0x40)) :: utf8DecodeAux fuel rest4
                else replacementChar :: utf8DecodeAux fuel (b4 :: rest4)
            else replacementChar :: utf8DecodeAux fuel (b3 :: rest3)
        else replacementChar :: utf8DecodeAux fuel (b2 :: rest2)
    else replacementChar :: utf8DecodeAux fuel rest

/-- UTF-8 decoding of one byte chunk with U+FFFD replacement, the semantics
of `data.toString()` on a standalone `Buffer` (line 154, no `setEncoding`
and no `string_decoder`, so every chunk is decoded independently).  Follows
the WHATWG UTF-8 decoder: one replacement per maximal ill-formed subpart,
an invalid continuation byte is reprocessed as a fresh lead, and a sequence
truncated by the end of the chunk yields one replacement. -/
def utf8Decode (bytes : List Nat) : List Char :=
  utf8DecodeAux bytes.length bytes

/-- The full stdout `data` handler over raw byte chunks (lines 152-157):
each `Buffer` chunk is decoded to text independently by `data.toString()`
and appended to the line buffer; by definition of `handleChunks` this
threads `handleChunk buffer (utf8Decode chunk)` chunk by chunk. -/
def handleByteChunks (buffer : List Char) (chunks : List (List Nat)) :
    List (List Char) × List Char :=
  handleChunks buffer (chunks.map utf8Decode)

/-- A concrete byte chunk sequence whose boundaries do not split any
multibyte sequence: `é\na` / `bé`. -/
def byteChunkDemo : List (List Nat) :=
  [[0xC3, 0xA9, 0x0A, 0x61], [0x62, 0xC3, 0xA9]]

/-- The correlator invariant: pending identifiers are distinct, positive and
strictly below the allocation counter, which is itself positive. -/
def Inv (st : ServerState) : Prop :=
  st.pendingRequests.Nodup ∧
  (∀ id ∈ st.pendingRequests, 0 < id ∧ id < st.requestId) ∧
  0 < st.requestId

/-- A request identifier is dead once it is outside the pending map and below
the allocation counter: it can never be pending, allocated or settled again. -/
def Dead (st : ServerState) (id : Nat) : Prop :=
  id ∉ st.pendingRequests ∧ id < st.requestId

/-- A demonstration trace: launch the worker, receive the readiness marker on
stderr, submit one request (allocating identifier 1). -/
def demoTrace : List Event :=
  [.runStart true, .stderrData readyWord, .submit true]

/-- The state after `demoTrace`: worker ready, identifier 1 pending with its
timer armed, allocation counter at 2. -/
def demoReady : ServerState := (run initialState demoTrace).1

/-- A trace that exhausts the attempt budget: three launches, the first two
ending in a crash with exit code 1. -/
def exhaustTrace : List Event :=
  [.runStart true, .processExit (some 1) none,
   .runStart true, .processExit (some 1) none,
   .runStart true]

/-- The state after `exhaustTrace`: attempt counter at the maximum (3) with
the third worker instance running. -/
def exhausted : ServerState := (run initialState exhaustTrace).1

/-- A concrete chunk sequence for exercising the framer: the byte stream
`a\nbc\nd` cut after the `b` and after the second newline. -/
def chunkDemo : List (List Char) :=
  [['a', '\n', 'b'], ['c', '\n'], ['d']]

theorem headMatches_self_append (pat r : List Char) :
    headMatches pat (pat ++ r) = true := by
  induction pat with
  | nil => rfl
  | cons p ps ih => simp [headMatches, ih]

theorem containsSub_self_append (pat r : List Char) :
    containsSub pat (pat ++ r) = true := by
  cases hp : pat ++ r with
  | nil =>
    have hpat : pat = [] := by
      cases pat with
      | nil => rfl
      | cons a as => simp at hp
    subst hpat
    simp [containsSub, headMatches]
  | cons c cs =>
    have h1 : headMatches pat (c :: cs) = true := hp ▸ headMatches_self_append pat r
    simp [containsSub, h1]

theorem containsSub_middle (pat l r : List Char) :
    containsSub pat (l ++ pat ++ r) = true := by
  induction l with
  | nil => simpa using containsSub_self_append pat r
  | cons c l' ih =>
    simp only [List.cons_append]
    simp only [containsSub, Bool.or_eq_true]
    exact Or.inr (by simpa [List.append_assoc] using ih)

theorem containsSub_middle' (pat l r : List Char) :
    containsSub pat (l ++ (pat ++ r)) = true := by
  simpa [List.append_assoc] using containsSub_middle pat l r

/-- C10: the Ready transition fires whenever a stderr data chunk contains
`MCP_SERVER_READY` or the lowercase substring `ready` anywhere in the chunk
(line 144), not only as a whole designated marker line; in particular a
diagnostic chunk containing the word `already` triggers it.  The transition
cancels the initialization timer, resets the attempt counter to zero and
opens the gate (`isVannaReady = true`) for outgoing requests. -/
theorem readiness_trigger_on_substring :
    (∀ st l r, onStderrData st (l ++ readyWord ++ r) =
      { st with isVannaReady := true, initializationAttempts := 0, initTimerArmed := false }) ∧
    (∀ st l r, onStderrData st (l ++ readyMarker ++ r) =
      { st with isVannaReady := true, initializationAttempts := 0, initTimerArmed := false }) ∧
    containsReady ['a', 'l', 'r', 'e', 'a', 'd', 'y'] = true ∧
    onStderrData initialState ['a', 'l', 'r', 'e', 'a', 'd', 'y'] =
      { initialState with isVannaReady := true } := by
  refine ⟨?_, ?_, by decide, by decide⟩
  · intro st l r
    simp [onStderrData, containsReady, containsSub_middle']
  · intro st l r
    simp [onStderrData, containsReady, containsSub_middle']

theorem jsSplit_ne_nil (s : List Char) : jsSplit s ≠ [] := by
  cases s with
  | nil => simp [jsSplit]
  | cons c rest =>
    simp only [jsSplit]
    split
    · simp
    · split <;> simp

theorem glueHead_ne_nil (x : List Char) (ls : List (List Char)) :
    glueHead x ls ≠ [] := by
  cases ls <;> simp [glueHead]

theorem jsSplit_append (a b : List Char) :
    jsSplit (a ++ b) =
      (jsSplit a).dropLast ++ glueHead ((jsSplit a).getLastD []) (jsSplit b) := by
  induction a with
  | nil =>
    cases h : jsSplit b with
    | nil => exact absurd h (jsSplit_ne_nil b)
    | cons p ps => simp [jsSplit, glueHead, h]
  | cons c a' ih =>
    by_cases hc : c = '\n'
    · subst hc
      have l1 : jsSplit (('\n' :: a') ++ b) = [] :: jsSplit (a' ++ b) := by
        simp [jsSplit]
      have l2 : jsSplit ('\n' :: a') = [] :: jsSplit a' := by
        simp [jsSplit]
      rw [l1, l2, ih]
      cases h : jsSplit a' with
      | nil => exact absurd h (jsSplit_ne_nil a')
      | cons p ps =>
        simp [List.dropLast_cons₂, List.getLastD_cons]
    · cases ha : jsSplit a' with
      | nil => exact absurd ha (jsSplit_ne_nil a')
      | cons p ps =>
        cases hb : jsSplit b with
        | nil => exact absurd hb (jsSplit_ne_nil b)
        | cons q qs =>
          rw [ha, hb] at ih
          have l2 : jsSplit (c :: a') = (c :: p) :: ps := by
            simp only [jsSplit, ha]
            simp [hc]
          have l1 : jsSplit ((c :: a') ++ b) =
              match jsSplit (a' ++ b) with
              | [] => [[c]]
              | p0 :: ps0 => (c :: p0) :: ps0 := by
            simp only [List.cons_append, jsSplit]
            simp [hc]
          rw [l1, ih, l2]
          cases ps with
          | nil => simp [glueHead, List.getLastD_cons]
          | cons p2 ps2 =>
            simp [glueHead, List.getLastD_cons, List.dropLast_cons₂]

theorem jsSplit_getLastD_no_nl (s : List Char) :
    '\n' ∉ (jsSplit s).getLastD [] := by
  induction s with
  | nil => simp [jsSplit]
  | cons c rest ih =>
    by_cases hc : c = '\n'
    · subst hc
      have l1 : jsSplit ('\n' :: rest) = [] :: jsSplit rest := by simp [jsSplit]
      rw [l1]
      cases h : jsSplit rest with
      | nil => exact absurd h (jsSplit_ne_nil rest)
      | cons p ps =>
        rw [h] at ih
        simpa [List.getLastD_cons] using ih
    · cases h : jsSplit rest with
      | nil => exact absurd h (jsSplit_ne_nil rest)
      | cons p ps =>
        have l1 : jsSplit (c :: rest) = (c :: p) :: ps := by
          simp only [jsSplit, h]
          simp [hc]
        rw [l1]
        rw [h] at ih
        cases ps with
        | nil =>
          simp only [List.getLastD_cons] at ih ⊢
          simp only [List.getLastD] at ih ⊢
          simp [hc, Ne.symm hc, ih]
        | cons p2 ps2 =>
          simpa [List.getLastD_cons] using ih

theorem jsSplit_of_no_nl (s : List Char) (h : '\n' ∉ s) : jsSplit s = [s] := by
  induction s with
  | nil => rfl
  | cons c rest ih =>
    have hc : c ≠ '\n' := fun hcc => h (hcc ▸ List.mem_cons_self c rest)
    have hr : '\n' ∉ rest := fun hm => h (List.mem_cons_of_mem c hm)
    have l1 : jsSplit (c :: rest) = (c :: rest) :: [] := by
      simp only [jsSplit, ih hr]
      simp [fun hcc => hc hcc]
    simpa using l1

theorem handleChunk_append (buffer c1 c2 : List Char) :
    handleChunk buffer (c1 ++ c2) =
      ((handleChunk buffer c1).1 ++ (handleChunk (handleChunk buffer c1).2 c2).1,
       (handleChunk (handleChunk buffer c1).2 c2).2) := by
  unfold handleChunk
  have hx : '\n' ∉ (jsSplit (buffer ++ c1)).getLastD [] :=
    jsSplit_getLastD_no_nl (buffer ++ c1)
  have h1 : jsSplit (buffer ++ (c1 ++ c2)) =
      (jsSplit (buffer ++ c1)).dropLast ++
        glueHead ((jsSplit (buffer ++ c1)).getLastD []) (jsSplit c2) := by
    rw [← List.append_assoc]
    exact jsSplit_append (buffer ++ c1) c2
  have h2 : jsSplit ((jsSplit (buffer ++ c1)).getLastD [] ++ c2) =
      glueHead ((jsSplit (buffer ++ c1)).getLastD []) (jsSplit c2) := by
    rw [jsSplit_append, jsSplit_of_no_nl _ hx]
    simp
  rw [h1, h2]
  cases hg : glueHead ((jsSplit (buffer ++ c1)).getLastD []) (jsSplit c2) with
  | nil => exact absurd hg (glueHead_ne_nil _ _)
  | cons g gs =>
    simp only [Prod.mk.injEq]
    constructor
    · rw [List.dropLast_append_cons]
    · rw [List.getLastD_eq_getLast?, List.getLastD_eq_getLast?,
        List.getLast?_append_of_ne_nil _ (by simp)]

/-- The character-level framer is invariant under re-chunking of the decoded
stream: feeding the chunks one by one produces the same complete lines and
the same final buffer as feeding the whole character stream at once, and the
buffer retained between chunks is exactly the trailing incomplete
(newline-free) fragment. -/
theorem framer_chunk_invariance (buffer : List Char) (cs : List (List Char))
    (h : '\n' ∉ buffer) :
    handleChunks buffer cs = handleChunk buffer cs.flatten ∧
    '\n' ∉ (handleChunks buffer cs).2 := by
  induction cs generalizing buffer with
  | nil =>
    refine ⟨?_, h⟩
    simp [handleChunks, handleChunk, jsSplit_of_no_nl buffer h]
  | cons c cs' ih =>
    have hb : '\n' ∉ (handleChunk buffer c).2 := by
      unfold handleChunk
      exact jsSplit_getLastD_no_nl (buffer ++ c)
    obtain ⟨ih1, ih2⟩ := ih (handleChunk buffer c).2 hb
    constructor
    · show ((handleChunk buffer c).1 ++ (handleChunks (handleChunk buffer c).2 cs').1,
        (handleChunks (handleChunk buffer c).2 cs').2) = _
      rw [ih1]
      have := handleChunk_append buffer c cs'.flatten
      simp only [List.flatten_cons]
      rw [this]
    · show '\n' ∉ (handleChunks (handleChunk buffer c).2 cs').2
      exact ih2

/-- C9 counterexample: the framer is NOT invariant under every partition of
the byte stream.  The bytes of `é\n` ([0xC3, 0xA9, 0x0A]) produce the single
line `é` when they arrive in one chunk, but a different line (two U+FFFD
replacement characters) when the chunk boundary splits the two-byte
sequence, because `data.toString()` decodes each chunk independently. -/
theorem framer_byte_partition_cex :
    List.flatten [[0xC3, 0xA9, 0x0A]] = List.flatten [[0xC3], [0xA9, 0x0A]] ∧
    (handleByteChunks [] [[0xC3, 0xA9, 0x0A]]).1 ≠
      (handleByteChunks [] [[0xC3], [0xA9, 0x0A]]).1 ∧
    (handleByteChunks [] [[0xC3, 0xA9, 0x0A]]).1 = [[Char.ofNat 0xE9]] ∧
    (handleByteChunks [] [[0xC3], [0xA9, 0x0A]]).1 =
      [[replacementChar, replacementChar]] := by
  refine ⟨rfl, ?_, by decide, by decide⟩
  decide

/-- C9 amended: for every byte stream and every partition of it into chunks
whose boundaries do not split a multibyte UTF-8 sequence — that is, the
independent per-chunk decodes concatenate to the decode of the whole
stream — the framer produces the same sequence of complete
newline-terminated lines regardless of where the chunk boundaries fall, and
the buffer retained between chunks is exactly the trailing incomplete
(newline-free) fragment. -/
theorem framer_chunk_invariance_bytes (buffer : List Char) (bs : List (List Nat))
    (halign : (bs.map utf8Decode).flatten = utf8Decode bs.flatten)
    (h : '\n' ∉ buffer) :
    handleByteChunks buffer bs = handleChunk buffer (utf8Decode bs.flatten) ∧
    '\n' ∉ (handleByteChunks buffer bs).2 := by
  have h1 := framer_chunk_invariance buffer (bs.map utf8Decode) h
  rw [halign] at h1
  exact h1

/-- Witness for C9's amended statement at a concrete byte stream: the chunks
`é\na` / `bé` are character-aligned, so chunked and unchunked framing agree. -/
theorem framer_chunk_invariance_bytes_witness :
    handleByteChunks [] byteChunkDemo =
      handleChunk [] (utf8Decode byteChunkDemo.flatten) ∧
    '\n' ∉ (handleByteChunks [] byteChunkDemo).2 :=
  framer_chunk_invariance_bytes [] byteChunkDemo (by decide) (by decide)

theorem step_requestId_mono (st : ServerState) (ev : Event) :
    st.requestId ≤ (step st ev).1.requestId := by
  cases ev <;>
    simp only [step, submitRequest, sendToVanna, handleResponse, onRequestTimeout,
      onStderrData, onProcessError, onProcessExit, killPython, startPython, onInitTimeout]
  all_goals (repeat' split)
  all_goals simp

theorem step_pending_mem (st : ServerState) (ev : Event) :
    ∀ j ∈ (step st ev).1.pendingRequests, j ∈ st.pendingRequests ∨ st.requestId ≤ j := by
  intro j hj
  cases ev <;>
    simp only [step, submitRequest, sendToVanna, handleResponse, onRequestTimeout,
      onStderrData, onProcessError, onProcessExit, killPython, startPython,
      onInitTimeout] at hj
  all_goals (repeat' split at hj)
  all_goals (try dsimp only at hj)
  all_goals try exact Or.inl hj
  all_goals first
    | exact Or.inl (List.mem_of_mem_erase hj)
    | exact absurd hj (List.not_mem_nil j)
    | (rcases List.mem_append.mp hj with h1 | h1
       · exact Or.inl h1
       · exact Or.inr (le_of_eq (List.mem_singleton.mp h1).symm))

theorem step_inv (st : ServerState) (ev : Event) (h : Inv st) :
    Inv (step st ev).1 := by
  obtain ⟨hnd, hmem, hpos⟩ := h
  have hfresh : st.requestId ∉ st.pendingRequests := fun hmm => lt_irrefl _ (hmem _ hmm).2
  cases ev <;>
    simp only [step, submitRequest, sendToVanna, handleResponse, onRequestTimeout,
      onStderrData, onProcessError, onProcessExit, killPython, startPython, onInitTimeout]
  all_goals (repeat' split)
  all_goals try exact ⟨hnd, hmem, hpos⟩
  all_goals first
    | exact ⟨hnd, fun id hid => ⟨(hmem id hid).1, Nat.lt_succ_of_lt (hmem id hid).2⟩,
        Nat.lt_succ_of_lt hpos⟩
    | exact ⟨hnd.erase _, fun j hj => ⟨(hmem j (List.mem_of_mem_erase hj)).1,
        (hmem j (List.mem_of_mem_erase hj)).2⟩, hpos⟩
    | exact ⟨List.nodup_nil, fun j hj => absurd hj (List.not_mem_nil j), hpos⟩
    | exact ⟨hnd.append (List.nodup_singleton _)
          (fun a ha hb => hfresh ((List.mem_singleton.mp hb) ▸ ha)),
        fun id hid => (List.mem_append.mp hid).elim
          (fun hold => ⟨(hmem id hold).1, Nat.lt_succ_of_lt (hmem id hold).2⟩)
          (fun hnew => by
            rw [List.mem_singleton.mp hnew]
            exact ⟨hpos, Nat.lt_succ_self _⟩),
        Nat.lt_succ_of_lt hpos⟩

theorem step_out_src (st : ServerState) (ev : Event) :
    ∀ s ∈ (step st ev).2, s.id ∈ st.pendingRequests ∨ s.id = st.requestId := by
  intro s hs
  cases hstep : step st ev with
  | mk st' out =>
    rw [hstep] at hs
    cases ev <;>
      simp only [step, submitRequest, sendToVanna, handleResponse, onRequestTimeout,
        onStderrData, onProcessError, onProcessExit, killPython, startPython,
        onInitTimeout] at hstep
    all_goals (repeat' split at hstep)
    all_goals (injection hstep with h1 h2)
    all_goals (subst h1; subst h2)
    all_goals try exact absurd hs (List.not_mem_nil s)
    all_goals first
      | (obtain ⟨j, hj, rfl⟩ := List.mem_map.mp hs
         exact Or.inl hj)
      | (rcases List.mem_singleton.mp hs with rfl
         exact Or.inr rfl)
      | (rename_i hcond hx
         rcases List.mem_singleton.mp hs with rfl
         simp only [Bool.and_eq_true] at hcond
         exact Or.inl (List.mem_of_elem_eq_true hcond.2))
      | (rename_i hpend
         rcases List.mem_singleton.mp hs with rfl
         exact Or.inl (List.mem_of_elem_eq_true hpend))

theorem step_out_dead (st : ServerState) (ev : Event) (h : Inv st) :
    ∀ s ∈ (step st ev).2, Dead (step st ev).1 s.id := by
  obtain ⟨hnd, hmem, hpos⟩ := h
  have hfresh : st.requestId ∉ st.pendingRequests := fun hmm => lt_irrefl _ (hmem _ hmm).2
  intro s hs
  cases hstep : step st ev with
  | mk st' out =>
    rw [hstep] at hs
    cases ev <;>
      simp only [step, submitRequest, sendToVanna, handleResponse, onRequestTimeout,
        onStderrData, onProcessError, onProcessExit, killPython, startPython,
        onInitTimeout] at hstep
    all_goals (repeat' split at hstep)
    all_goals (injection hstep with h1 h2)
    all_goals (subst h1; subst h2)
    all_goals try exact absurd hs (List.not_mem_nil s)
    all_goals first
      | (obtain ⟨j, hj, rfl⟩ := List.mem_map.mp hs
         exact ⟨List.not_mem_nil _, (hmem j hj).2⟩)
      | (rcases List.mem_singleton.mp hs with rfl
         exact ⟨hfresh, Nat.lt_succ_self _⟩)
      | (rename_i hcond hx
         rcases List.mem_singleton.mp hs with rfl
         simp only [Bool.and_eq_true] at hcond
         exact ⟨fun hmm => ((List.Nodup.mem_erase_iff hnd).mp hmm).1 rfl,
           (hmem _ (List.mem_of_elem_eq_true hcond.2)).2⟩)
      | (rename_i hpend
         rcases List.mem_singleton.mp hs with rfl
         exact ⟨fun hmm => ((List.Nodup.mem_erase_iff hnd).mp hmm).1 rfl,
           (hmem _ (List.mem_of_elem_eq_true hpend)).2⟩)

theorem step_out_le_one (st : ServerState) (ev : Event) (h : Inv st) (id : Nat) :
    settleCount id (step st ev).2 ≤ 1 := by
  obtain ⟨hnd, hmem, hpos⟩ := h
  cases hstep : step st ev with
  | mk st' out =>
    cases ev <;>
      simp only [step, submitRequest, sendToVanna, handleResponse, onRequestTimeout,
        onStderrData, onProcessError, onProcessExit, killPython, startPython,
        onInitTimeout] at hstep
    all_goals (repeat' split at hstep)
    all_goals (injection hstep with h1 h2)
    all_goals (subst h1; subst h2)
    all_goals dsimp only
    all_goals simp only [settleCount]
    all_goals first
      | exact Nat.zero_le _
      | exact le_trans (List.countP_le_length _) (Nat.le_of_eq (List.length_singleton _))
      | (rw [List.countP_map]
         exact List.nodup_iff_count_le_one.mp hnd id)

theorem step_dead (st : ServerState) (ev : Event) (id : Nat) (hd : Dead st id) :
    Dead (step st ev).1 id ∧ settleCount id (step st ev).2 = 0 := by
  obtain ⟨hnp, hlt⟩ := hd
  constructor
  · constructor
    · intro hmm
      rcases step_pending_mem st ev id hmm with h1 | h1
      · exact hnp h1
      · exact absurd hlt (not_lt.mpr h1)
    · exact lt_of_lt_of_le hlt (step_requestId_mono st ev)
  · simp only [settleCount]
    rw [List.countP_eq_zero]
    intro s hs hsid
    have hid : s.id = id := by simpa using hsid
    rcases step_out_src st ev s hs with h1 | h1
    · exact hnp (hid ▸ h1)
    · rw [hid] at h1
      omega

theorem run_inv (evs : List Event) : ∀ st, Inv st → Inv (run st evs).1 := by
  induction evs with
  | nil => intro st h; exact h
  | cons ev evs ih => intro st h; exact ih _ (step_inv st ev h)

theorem run_dead (evs : List Event) : ∀ st id, Dead st id →
    Dead (run st evs).1 id ∧ settleCount id (run st evs).2 = 0 := by
  induction evs with
  | nil => intro st id hd; exact ⟨hd, rfl⟩
  | cons ev evs ih =>
    intro st id hd
    obtain ⟨hd1, hc1⟩ := step_dead st ev id hd
    obtain ⟨hd2, hc2⟩ := ih (step st ev).1 id hd1
    refine ⟨hd2, ?_⟩
    show settleCount id ((step st ev).2 ++ (run (step st ev).1 evs).2) = 0
    simp only [settleCount, List.countP_append]
    simp only [settleCount] at hc1 hc2
    omega

theorem run_settle_le_one (evs : List Event) : ∀ st, Inv st →
    ∀ id, settleCount id (run st evs).2 ≤ 1 := by
  induction evs with
  | nil => intro st h id; simp [run, settleCount]
  | cons ev evs ih =>
    intro st h id
    have h1 := step_inv st ev h
    have hsplit : settleCount id (run st (ev :: evs)).2 =
        settleCount id (step st ev).2 + settleCount id (run (step st ev).1 evs).2 := by
      show settleCount id ((step st ev).2 ++ (run (step st ev).1 evs).2) = _
      simp [settleCount, List.countP_append]
    rw [hsplit]
    by_cases hz : settleCount id (step st ev).2 = 0
    · rw [hz]
      simpa using ih (step st ev).1 h1 id
    · have hpos : 0 < settleCount id (step st ev).2 := Nat.pos_of_ne_zero hz
      have hpos2 : 0 < List.countP (fun s => s.id == id) (step st ev).2 := hpos
      obtain ⟨s, hs, hsid⟩ := List.countP_pos_iff.mp hpos2
      have hid : s.id = id := by simpa using hsid
      have hdead : Dead (step st ev).1 id := hid ▸ step_out_dead st ev h s hs
      have hz2 := (run_dead evs (step st ev).1 id hdead).2
      have hle := step_out_le_one st ev h id
      omega

theorem initial_inv : Inv initialState :=
  ⟨List.nodup_nil, fun id hid => absurd hid (List.not_mem_nil id), Nat.one_pos⟩

theorem contains_eq_false_of_not_mem {l : List Nat} {a : Nat} (h : a ∉ l) :
    l.contains a = false := by
  by_cases hb : l.elem a
  · exact absurd (List.mem_of_elem_eq_true hb) h
  · simpa using hb

theorem contains_eq_true_of_mem {l : List Nat} {a : Nat} (h : a ∈ l) :
    l.contains a = true :=
  List.elem_eq_true_of_mem h

/-- C1: every request registered in the pending table is settled at most once
along any event sequence, whichever of matching response, per-request timeout
or exit purge comes first settles it, and a response or timer firing whose
identifier is not pending mutates no pending entry and emits nothing. -/
theorem single_settlement_correlator :
    (∀ evs id, settleCount id (run initialState evs).2 ≤ 1) ∧
    (∀ st id isErr, id ∉ st.pendingRequests → handleResponse st id isErr = (st, [])) ∧
    (∀ st id, id ∉ st.pendingRequests →
      (onRequestTimeout st id).1.pendingRequests = st.pendingRequests ∧
      (onRequestTimeout st id).2 = []) ∧
    (∀ st id isErr, Inv st → id ∈ st.pendingRequests →
      handleResponse st id isErr =
        ({ st with pendingRequests := st.pendingRequests.erase id },
         [{ id := id, outcome := if isErr then .rejectedErr else .resolved }])) ∧
    (∀ st id, id ∈ st.requestTimers → id ∈ st.pendingRequests →
      (onRequestTimeout st id).2 = [{ id := id, outcome := .timedOut }]) ∧
    (∀ st code sig, (onProcessExit st code sig).2 =
      st.pendingRequests.map fun id => { id := id, outcome := .procExited }) := by
  refine ⟨fun evs id => run_settle_le_one evs initialState initial_inv id,
    ?_, ?_, ?_, ?_, ?_⟩
  · intro st id isErr h
    simp [handleResponse, h]
  · intro st id h
    refine ⟨?_, ?_⟩ <;> (simp only [onRequestTimeout]; split <;> simp [h])
  · intro st id isErr hInv h
    obtain ⟨hnd, hmem, hpos⟩ := hInv
    have h0 : id ≠ 0 := Nat.pos_iff_ne_zero.mp (hmem id h).1
    simp [handleResponse, h0, h]
  · intro st id ht hp
    simp [onRequestTimeout, ht, hp]
  · intro st code sig
    simp only [onProcessExit]
    split <;> rfl

/-- Witness for C1 at concrete states: an unknown identifier is dropped with
no mutation, and a pending identifier is settled by response and by timeout. -/
theorem single_settlement_correlator_witness :
    handleResponse demoReady 5 false = (demoReady, []) ∧
    (onRequestTimeout demoReady 5).2 = [] ∧
    handleResponse demoReady 1 true =
      ({ demoReady with pendingRequests := demoReady.pendingRequests.erase 1 },
       [{ id := 1, outcome := .rejectedErr }]) ∧
    (onRequestTimeout demoReady 1).2 = [{ id := 1, outcome := .timedOut }] :=
  ⟨single_settlement_correlator.2.1 demoReady 5 false (by decide),
   (single_settlement_correlator.2.2.1 demoReady 5 (by decide)).2,
   single_settlement_correlator.2.2.2.1 demoReady 1 true
     ⟨by decide, by decide, by decide⟩ (by decide),
   single_settlement_correlator.2.2.2.2.1 demoReady 1 (by decide) (by decide)⟩

theorem step_submit_requestId (st : ServerState) (w : Bool) :
    (step st (.submit w)).1.requestId = st.requestId + 1 := by
  simp only [step, submitRequest, sendToVanna]
  (repeat' split) <;> rfl

theorem allocIds_ge (evs : List Event) : ∀ st a, a ∈ allocIds st evs →
    st.requestId ≤ a := by
  induction evs with
  | nil => intro st a ha; exact absurd ha (List.not_mem_nil a)
  | cons ev evs ih =>
    intro st a ha
    cases ev
    all_goals try (simp only [allocIds] at ha
                   exact le_trans (step_requestId_mono st _) (ih _ a ha))
    rename_i w
    simp only [allocIds] at ha
    rcases List.mem_cons.mp ha with rfl | ha
    · exact le_refl _
    · have h2 := ih _ a ha
      rw [step_submit_requestId] at h2
      omega

theorem allocIds_pairwise (evs : List Event) : ∀ st,
    (allocIds st evs).Pairwise (· < ·) := by
  induction evs with
  | nil => intro st; simp [allocIds]
  | cons ev evs ih =>
    intro st
    cases ev
    all_goals try (simp only [allocIds]; exact ih _)
    rename_i w
    simp only [allocIds]
    refine List.Pairwise.cons ?_ (ih _)
    intro a ha
    have h2 := allocIds_ge evs _ a ha
    rw [step_submit_requestId] at h2
    omega

/-- C2: identifiers allocated by `this.requestId++` are strictly increasing
over the lifetime of the process and never reused, even across worker
restarts (`startPython` does not touch the counter); at most one pending
entry exists per identifier and every pending identifier is below the
allocation counter, so pre-purge identifiers never collide with post-relaunch
ones. -/
theorem identifiers_strictly_increasing :
    (∀ evs, (allocIds initialState evs).Pairwise (· < ·)) ∧
    (∀ evs, (run initialState evs).1.pendingRequests.Nodup) ∧
    (∀ evs id, id ∈ (run initialState evs).1.pendingRequests →
      id < (run initialState evs).1.requestId) ∧
    (∀ st f, (startPython st f).requestId = st.requestId) := by
  refine ⟨fun evs => allocIds_pairwise evs initialState,
    fun evs => (run_inv evs initialState initial_inv).1,
    fun evs id hid => ((run_inv evs initialState initial_inv).2.1 id hid).2,
    fun st f => ?_⟩
  simp only [startPython]
  (repeat' split) <;> rfl

/-- Witness for C2: after the demonstration trace the single pending
identifier 1 sits below the allocation counter. -/
theorem identifiers_strictly_increasing_witness :
    1 < (run initialState demoTrace).1.requestId :=
  identifiers_strictly_increasing.2.2.1 demoTrace 1 (by decide)

/-- C3: a request submitted while the process reference is null or the ready
flag is false is rejected immediately with the "System initializing" error;
no pending entry is registered, no timer armed, and no bytes written — the
only state change is the already-performed identifier allocation. -/
theorem notReady_submit_rejected (st : ServerState) (w : Bool)
    (h : st.pythonProcess = false ∨ st.isVannaReady = false) :
    submitRequest st w =
      ({ st with requestId := st.requestId + 1 },
       [{ id := st.requestId, outcome := .notReady }]) := by
  have hg : (!st.pythonProcess || !st.isVannaReady) = true := by
    rcases h with h | h <;> simp [h]
  simp [submitRequest, sendToVanna, hg]

/-- Witness for C3 at the constructor state (no process yet). -/
theorem notReady_submit_rejected_witness :
    submitRequest initialState true =
      ({ initialState with requestId := 2 },
       [{ id := 1, outcome := .notReady }]) := by
  have h := notReady_submit_rejected initialState true (Or.inl rfl)
  simpa using h

/-- C4: a worker exit with non-zero code (no signal) while the attempt
counter is below the budget rejects every pending request with the
process-terminated condition, clears the pending set, schedules one relaunch
after the fixed backoff, and that relaunch increments the attempt counter by
exactly 1 when it runs. -/
theorem nonzero_exit_purges_and_schedules (st : ServerState) (c : Int)
    (hc : c ≠ 0) (ha : st.initializationAttempts < maxAttempts) :
    (onProcessExit st (some c) none).2 =
      st.pendingRequests.map (fun id => { id := id, outcome := .procExited }) ∧
    (onProcessExit st (some c) none).1.pendingRequests = [] ∧
    (onProcessExit st (some c) none).1.scheduledRestarts =
      st.scheduledRestarts ++ [backoffMs] ∧
    ∀ f, (startPython (onProcessExit st (some c) none).1 f).initializationAttempts =
      st.initializationAttempts + 1 := by
  have hcond : (none : Option String) ≠ some "SIGTERM" ∧ (some c : Option Int) ≠ some 0 ∧
      st.initializationAttempts < maxAttempts := ⟨by simp, by simpa using hc, ha⟩
  have hlt : ¬ st.initializationAttempts ≥ maxAttempts := Nat.not_le.mpr ha
  refine ⟨by simp [onProcessExit, hcond], by simp [onProcessExit, hcond],
    by simp [onProcessExit, hcond], ?_⟩
  intro f
  simp only [onProcessExit, if_pos hcond, startPython]
  split
  · rename_i hge
    exact absurd hge hlt
  · split <;> rfl

/-- Witness for C4: the exit of the ready worker with code 1 and one pending
request. -/
theorem nonzero_exit_purges_and_schedules_witness :
    (onProcessExit demoReady (some 1) none).2 = [{ id := 1, outcome := .procExited }] ∧
    (onProcessExit demoReady (some 1) none).1.pendingRequests = [] ∧
    (onProcessExit demoReady (some 1) none).1.scheduledRestarts = [backoffMs] ∧
    (startPython (onProcessExit demoReady (some 1) none).1 true).initializationAttempts
      = 1 := by
  obtain ⟨h1, h2, h3, h4⟩ :=
    nonzero_exit_purges_and_schedules demoReady 1 (by decide) (by decide)
  exact ⟨by rw [h1]; rfl, h2, by rw [h3]; rfl, by rw [h4 true]; rfl⟩

/-- C5 counterexample: after three failed launches the attempt counter sits
at the maximum (3), yet a subsequent process-level error event still appends
a scheduled relaunch — contradicting "no further automatic relaunch is ever
scheduled, in any subsequent event". -/
theorem attempt_budget_claim_cex :
    exhausted.initializationAttempts = maxAttempts ∧
    (step exhausted .processError).1.scheduledRestarts.length =
      exhausted.scheduledRestarts.length + 1 := by decide

/-- C5 amended: the attempt counter increments on every launch and resets to
zero only on a readiness chunk; while it sits at the maximum, `startPython`
is a no-op (nothing is spawned, the counter is unchanged), so although error
and init-timeout events still schedule relaunch invocations, no further
launch occurs unless a readiness signal resets the counter first. -/
theorem attempt_budget_amended :
    (∀ st f, st.initializationAttempts = maxAttempts → startPython st f = st) ∧
    (∀ st f, st.initializationAttempts < maxAttempts →
      (startPython st f).initializationAttempts = st.initializationAttempts + 1) ∧
    (∀ st ev, st.initializationAttempts ≠ 0 →
      (step st ev).1.initializationAttempts = 0 →
      ∃ c, ev = .stderrData c ∧ containsReady c = true) ∧
    (∀ st ev, st.initializationAttempts = maxAttempts →
      (∀ c, ev = .stderrData c → containsReady c = false) →
      (step st ev).1.initializationAttempts = maxAttempts ∧
      (step st ev).1.launches = st.launches) := by
  refine ⟨?_, ?_, ?_, ?_⟩
  · intro st f h
    simp [startPython, h]
  · intro st f h
    have hlt : ¬ st.initializationAttempts ≥ maxAttempts := Nat.not_le.mpr h
    simp only [startPython, if_neg hlt]
    split <;> rfl
  · intro st ev h h2
    cases ev
    case stderrData c =>
      by_cases hcr : containsReady c = true
      · exact ⟨c, rfl, hcr⟩
      · exfalso
        apply h
        rw [← h2]
        simp [step, onStderrData, hcr]
    case runStart f =>
      exfalso
      simp only [step, startPython] at h2
      split at h2
      · exact h h2
      · split at h2 <;> exact absurd h2 (Nat.succ_ne_zero _)
    all_goals exfalso
    all_goals (simp only [step, submitRequest, sendToVanna, handleResponse,
      onRequestTimeout, onProcessError, onProcessExit, killPython, onInitTimeout] at h2)
    all_goals (repeat' split at h2)
    all_goals exact h h2
  · intro st ev h hnr
    cases ev
    case stderrData c =>
      have hcr := hnr c rfl
      constructor <;> simp [step, onStderrData, hcr, h]
    case runStart f =>
      have hge : st.initializationAttempts ≥ maxAttempts := le_of_eq h.symm
      constructor <;> simp [step, startPython, hge, h]
    all_goals (
      constructor <;>
        (simp only [step, submitRequest, sendToVanna, handleResponse,
          onRequestTimeout, onProcessError, onProcessExit, killPython, onInitTimeout]
         all_goals (repeat' split)
         all_goals first | exact h | rfl))

/-- Witness for C5's amended statement: the exhausted state refuses to
launch, a fresh state increments on launch, the error event leaves the
exhausted counter at the maximum, and a readiness chunk is the event that
resets a non-zero counter. -/
theorem attempt_budget_amended_witness :
    startPython exhausted true = exhausted ∧
    (startPython initialState true).initializationAttempts = 1 ∧
    (step exhausted .processError).1.initializationAttempts = maxAttempts ∧
    ∃ c, Event.stderrData readyWord = .stderrData c ∧ containsReady c = true :=
  ⟨attempt_budget_amended.1 exhausted true (by decide),
   attempt_budget_amended.2.1 initialState true (by decide),
   (attempt_budget_amended.2.2.2 exhausted .processError (by decide)
     (fun c hc => nomatch hc)).1,
   attempt_budget_amended.2.2.1 exhausted (.stderrData readyWord)
     (by decide) (by decide)⟩

/-- C6 counterexample: a matching response removes the pending entry and
resolves it, but the per-request timer is NOT cancelled — it stays armed
(`requestTimers` still holds identifier 1), contradicting "cancels that
request's per-request timeout timer". -/
theorem response_timer_not_cancelled_cex :
    (handleResponse demoReady 1 false).1.pendingRequests = [] ∧
    (handleResponse demoReady 1 false).2 = [{ id := 1, outcome := .resolved }] ∧
    (handleResponse demoReady 1 false).1.requestTimers = [1] := by decide

/-- C6 amended: a matching response removes the PendingRequest and resolves
or rejects according to the presence of the error object, but leaves the
per-request timer armed; the timer later fires as a no-op (it emits no
settlement) because the identifier is no longer pending. -/
theorem response_settles_without_timer_cancel (st : ServerState) (id : Nat)
    (isErr : Bool) (hInv : Inv st) (h : id ∈ st.pendingRequests) :
    handleResponse st id isErr =
      ({ st with pendingRequests := st.pendingRequests.erase id },
       [{ id := id, outcome := if isErr then .rejectedErr else .resolved }]) ∧
    (handleResponse st id isErr).1.requestTimers = st.requestTimers ∧
    (onRequestTimeout (handleResponse st id isErr).1 id).2 = [] := by
  obtain ⟨hnd, hmem, hpos⟩ := hInv
  have h0 : id ≠ 0 := Nat.pos_iff_ne_zero.mp (hmem id h).1
  have heq : handleResponse st id isErr =
      ({ st with pendingRequests := st.pendingRequests.erase id },
       [{ id := id, outcome := if isErr then .rejectedErr else .resolved }]) := by
    simp [handleResponse, h0, h]
  refine ⟨heq, by rw [heq], ?_⟩
  rw [heq]
  have hnm : id ∉ st.pendingRequests.erase id :=
    fun hmm => ((List.Nodup.mem_erase_iff hnd).mp hmm).1 rfl
  have hcf := contains_eq_false_of_not_mem hnm
  simp only [onRequestTimeout]
  simp only [hcf]
  split <;> simp

/-- Witness for C6's amended statement at the demonstration state. -/
theorem response_settles_without_timer_cancel_witness :
    (handleResponse demoReady 1 false).1.requestTimers = demoReady.requestTimers ∧
    (onRequestTimeout (handleResponse demoReady 1 false).1 1).2 = [] := by
  have h := response_settles_without_timer_cancel demoReady 1 false
    ⟨by decide, by decide, by decide⟩ (by decide)
  exact ⟨h.2.1, h.2.2⟩

/-- C7 counterexample: a process-level error event with one pending request
rejects nothing and leaves the pending set untouched — contradicting "rejects
all currently pending requests ... and clears the pending set". -/
theorem error_event_no_purge_cex :
    (step demoReady .processError).2 = [] ∧
    (step demoReady .processError).1.pendingRequests = [1] := by decide

/-- C7 amended: the `error` handler clears the ready flag and the init timer
and schedules a relaunch after the backoff, but does not reject or clear
pending requests; they remain pending and are still settled by a later
matching response (or their own timeout, or the exit purge). -/
theorem error_event_behavior (st : ServerState) :
    step st .processError =
      ({ st with
          isVannaReady := false
          initTimerArmed := false
          scheduledRestarts := st.scheduledRestarts ++ [backoffMs] }, []) ∧
    (step st .processError).1.pendingRequests = st.pendingRequests ∧
    (∀ id isErr, Inv st → id ∈ st.pendingRequests →
      (handleResponse (step st .processError).1 id isErr).2 =
        [{ id := id, outcome := if isErr then .rejectedErr else .resolved }]) := by
  refine ⟨rfl, rfl, ?_⟩
  intro id isErr hInv hm
  obtain ⟨hnd, hmem, hpos⟩ := hInv
  have h0 : id ≠ 0 := Nat.pos_iff_ne_zero.mp (hmem id hm).1
  simp [step, onProcessError, handleResponse, h0, hm]

/-- Witness for C7's amended statement: after an error event the still-pending
request 1 is settled by a later response. -/
theorem error_event_behavior_witness :
    (handleResponse (step demoReady .processError).1 1 false).2 =
      [{ id := 1, outcome := .resolved }] :=
  (error_event_behavior demoReady).2.2 1 false
    ⟨by decide, by decide, by decide⟩ (by decide)

/-- C8: an exit whose signal is SIGTERM (the supervisor's own termination
signal) never schedules a relaunch whatever the exit code; `killPython` is
idempotent and never purges, schedules or launches anything; and the exit
purge of an empty pending set settles nothing. -/
theorem deliberate_shutdown_no_relaunch (st : ServerState) :
    (∀ code, (onProcessExit st code (some "SIGTERM")).1.scheduledRestarts =
      st.scheduledRestarts) ∧
    (∀ k, killPython (killPython st true) k = killPython st true) ∧
    (∀ k, (killPython st k).scheduledRestarts = st.scheduledRestarts ∧
      (killPython st k).pendingRequests = st.pendingRequests ∧
      (killPython st k).launches = st.launches) ∧
    (st.pendingRequests = [] → ∀ code, (onProcessExit st code (some "SIGTERM")).2 = []) := by
  refine ⟨?_, ?_, ?_, ?_⟩
  · intro code
    simp [onProcessExit]
  · intro k
    by_cases hp : st.pythonProcess = true
    · simp [killPython, hp]
    · simp [killPython, hp]
  · intro k
    refine ⟨?_, ?_, ?_⟩ <;> (simp only [killPython]; (repeat' split) <;> rfl)
  · intro hp code
    simp [onProcessExit, hp]

/-- Witness for C8 at the constructor state (empty pending set). -/
theorem deliberate_shutdown_no_relaunch_witness :
    (onProcessExit initialState (some 1) (some "SIGTERM")).2 = [] :=
  (deliberate_shutdown_no_relaunch initialState).2.2.2 rfl (some 1)

end VannaMCP
